import Mathlib

/-!
Shallow embedding of the secvault kernel module (src/secvault.c, src/common.h).

Modelling conventions:
* Bytes are `Nat` values; machine `size_t`/`unsigned long` arithmetic is modelled
  on `Nat`/`Int` with explicit reduction modulo `2 ^ 64` where the C code can wrap
  (`sub64` below models 64-bit unsigned subtraction).
* `uid_t` is a 32-bit unsigned integer; `vault->owner = -1` in `reset_vault`
  therefore stores the value `2 ^ 32 - 1`.
* The caller identity returned by `get_current_uid()` is passed explicitly as a
  `uid` parameter.
* Kernel collaborators are modelled at their interface: `kmalloc` success is a
  boolean parameter, `copy_from_user`/`copy_to_user` report a `not_copied` count
  (`copy_from_user` zero-fills the uncopied tail of the kernel buffer, which the
  model reproduces), and `cdev_alloc`/`cdev_add` successes are boolean parameters.
* The per-vault semaphore only serializes operations; the sequential semantics of
  each operation body is modelled directly (the `ERESTARTSYS` early exit of an
  interrupted acquisition leaves no mutation and is not modelled).
* A `NULL` data pointer is modelled as the empty list; an out-of-bounds `memcpy`
  is modelled abstractly by list surgery past the end of the buffer.
-/

namespace Secvault

/-- `KEYSIZE` from common.h. -/
def KEYSIZE : Nat := 10

/-- `N_VAULTS` from common.h. -/
def N_VAULTS : Nat := 4

/-- `MAX_DATA` from common.h. -/
def MAX_DATA : Nat := 1048576

/-- Linux `SEEK_SET`. -/
def SEEK_SET : Nat := 0

/-- Linux `SEEK_CUR`. -/
def SEEK_CUR : Nat := 1

/-- Linux `SEEK_END`. -/
def SEEK_END : Nat := 2

/-- errno `EACCES`. -/
def EACCES : Int := 13

/-- errno `EINVAL`. -/
def EINVAL : Int := 22

/-- errno `ENOMEM`. -/
def ENOMEM : Int := 12

/-- The value `(uid_t)(-1)` stored into `vault->owner` by `reset_vault`. -/
def UID_SENTINEL : Nat := 2 ^ 32 - 1

/-- 64-bit unsigned subtraction: `size_t` / `unsigned long` wrap-around. -/
def sub64 (a b : Nat) : Nat := ((((a : Int) - (b : Int)) % (2 ^ 64))).toNat

/-- `vault_t` from secvault.c.  `data = []` models a `NULL` data pointer and
`driver` records whether `vault->driver` is non-`NULL`. -/
structure Vault where
  key : List Nat
  data : List Nat
  driver : Bool
  size : Nat
  used_space : Nat
  owner : Nat
  in_use : Bool
deriving DecidableEq

/-- `reset_vault`: resets a vault to the default configuration, storing
`(uid_t)(-1)` in `owner` and releasing the driver and the data buffer. -/
def reset_vault (v : Vault) : Vault :=
  { v with
      in_use := false
      size := 0
      used_space := 0
      owner := UID_SENTINEL
      driver := false
      data := [] }

/-- A vault as initialized by `mod_init`: `memset(&vaults, 0, ...)` zeroes every
field (in particular `owner = 0`), then `data`/`driver` are set to `NULL` and
`in_use` to `0`. -/
def init_vault : Vault :=
  { key := List.replicate KEYSIZE 0
    data := []
    driver := false
    size := 0
    used_space := 0
    owner := 0
    in_use := false }

/-- `vault_open`: returns `0` on success, `-EACCES` when the caller is not the
vault's owner.  The lifecycle status `in_use` is never consulted. -/
def vault_open (uid : Nat) (v : Vault) : Int :=
  if v.owner ≠ uid then -EACCES else 0

/-- `vault_release`: same gate as `vault_open`. -/
def vault_release (uid : Nat) (v : Vault) : Int :=
  if v.owner ≠ uid then -EACCES else 0

/-- The `switch (whence)` computation of `vault_llseek`.  `loff_t` values stay
inside `Int`; for every input representable in the C types (and any vault with
`size ≤ MAX_DATA`) the C wrap-around agrees with exact integer arithmetic on
the accept/reject decision and on the accepted value. -/
def seek_new_offset (v : Vault) (fpos : Nat) (offset : Int) (whence : Nat) : Int :=
  if whence = SEEK_SET then offset
  else if whence = SEEK_CUR then (fpos : Int) + offset
  else (v.size : Int) - 1 - offset

/-- `vault_llseek`: returns the new offset (or a negative errno) together with
the resulting file position. -/
def vault_llseek (uid : Nat) (v : Vault) (fpos : Nat) (offset : Int) (whence : Nat) :
    Int × Nat :=
  if v.owner ≠ uid then (-EACCES, fpos)
  else if whence = SEEK_SET ∨ whence = SEEK_CUR ∨ whence = SEEK_END then
    let new_offset := seek_new_offset v fpos offset whence
    if new_offset < 0 ∨ (v.size : Int) ≤ new_offset then (-EINVAL, fpos)
    else (new_offset, new_offset.toNat)
  else (-EINVAL, fpos)

/-- `xor_buffer`: byte `i` of the buffer is xor-ed with
`key[(offset + i) % KEYSIZE]`.  The loop is rendered as structural recursion
peeling one byte at a time while advancing the absolute offset. -/
def xor_buffer : List Nat → Nat → List Nat → List Nat
  | [], _, _ => []
  | b :: rest, off, key => (b ^^^ key.getD (off % KEYSIZE) 0) :: xor_buffer rest (off + 1) key

/-- The `to_copy` computation of `vault_read`: `len_avail = used_space - *offset`
is 64-bit **unsigned** arithmetic, so a cursor beyond `used_space` wraps. -/
def read_to_copy (v : Vault) (fpos len : Nat) : Nat :=
  let len_avail := sub64 v.used_space fpos
  if len_avail < len then len_avail else len

/-- `vault_read`: returns `(return value, new file position, bytes delivered to
userspace)`.  `allocOk` models the `kmalloc` outcome and `not_copied` the
`copy_to_user` result.  The vault itself is never mutated by a read. -/
def vault_read (uid : Nat) (v : Vault) (fpos len : Nat) (allocOk : Bool)
    (not_copied : Nat) : Int × Nat × List Nat :=
  if v.owner ≠ uid then (-EACCES, fpos, [])
  else
    let to_copy := read_to_copy v fpos len
    if !allocOk then (-ENOMEM, fpos, [])
    else
      let buffer := (v.data.drop fpos).take to_copy
      let decrypted := xor_buffer buffer fpos v.key
      (((to_copy - not_copied : Nat) : Int), fpos + (to_copy - not_copied),
        decrypted.take (to_copy - not_copied))

/-- The `to_copy` computation of `vault_write`: `len_avail = size - *offset` in
64-bit unsigned arithmetic. -/
def write_to_copy (v : Vault) (fpos len : Nat) : Nat :=
  let len_avail := sub64 v.size fpos
  if len_avail < len then len_avail else len

/-- `memcpy(data + off, repl, repl.length)` on a byte buffer. -/
def writeBytes (data : List Nat) (off : Nat) (repl : List Nat) : List Nat :=
  data.take off ++ repl ++ data.drop (off + repl.length)

/-- `vault_write`: returns `(return value, new file position, new vault)`.
`user` is the userspace source, `not_copied` the `copy_from_user` result (the
uncopied tail of the kernel buffer is zero-filled by `copy_from_user`).  Note
that the final `memcpy` into the vault copies all `to_copy` bytes, while
`used_space` and the cursor only advance by `to_copy - not_copied`. -/
def vault_write (uid : Nat) (v : Vault) (fpos len : Nat) (allocOk : Bool)
    (user : List Nat) (not_copied : Nat) : Int × Nat × Vault :=
  if v.owner ≠ uid then (-EACCES, fpos, v)
  else
    let to_copy := write_to_copy v fpos len
    if !allocOk then (-ENOMEM, fpos, v)
    else
      let actual := to_copy - not_copied
      let buffer := user.take actual ++ List.replicate (to_copy - actual) 0
      let encrypted := xor_buffer buffer fpos v.key
      let max_written := fpos + actual
      let used' := if max_written > v.used_space then max_written else v.used_space
      (((actual : Nat) : Int), fpos + actual,
        { v with used_space := used', data := writeBytes v.data fpos encrypted })

/-- `struct msg_t` from common.h (the `key[KEYSIZE]` terminator byte written by
the handler is never copied into a vault and is omitted). -/
structure Msg where
  key : List Nat
  size : Nat
  device : Nat
deriving DecidableEq

/-- `case 0` of `ioctl_handler` (Create).  `cdevAllocOk`, `cdevAddOk` and
`dataAllocOk` model `cdev_alloc`, `cdev_add` and `kmalloc`.  Note that
`vault->driver` is assigned *before* `cdev_add` and the data allocation are
attempted, and that a failed `kmalloc` leaves `vault->data = NULL`. -/
def create_cmd (uid : Nat) (v : Vault) (msgsize : Nat) (msgkey : List Nat)
    (cdevAllocOk cdevAddOk dataAllocOk : Bool) : Int × Vault :=
  if v.in_use then (-EINVAL, v)
  else if msgsize < 1 ∨ msgsize > MAX_DATA then (-EINVAL, v)
  else if !cdevAllocOk then (-EINVAL, v)
  else
    let v1 := { v with driver := true }
    if !cdevAddOk then (-EINVAL, v1)
    else if !dataAllocOk then (-ENOMEM, { v1 with data := [] })
    else
      (0, { v1 with
              data := List.replicate msgsize 0
              in_use := true
              size := msgsize
              used_space := 0
              owner := uid
              key := msgkey.take KEYSIZE })

/-- `case 1` of `ioctl_handler` (ChangeKey). -/
def changekey_cmd (uid : Nat) (v : Vault) (msgkey : List Nat) : Int × Vault :=
  if !v.in_use then (-EINVAL, v)
  else if v.owner ≠ uid then (-EACCES, v)
  else (0, { v with key := msgkey.take KEYSIZE })

/-- `case 5` of `ioctl_handler` (Erase): `memset(vault->data, 0, vault->size)`
and `used_space = 0`. -/
def erase_cmd (uid : Nat) (v : Vault) : Int × Vault :=
  if !v.in_use then (-EINVAL, v)
  else if v.owner ≠ uid then (-EACCES, v)
  else (0, { v with used_space := 0,
                    data := List.replicate v.size 0 ++ v.data.drop v.size })

/-- `case 3` of `ioctl_handler` (Delete). -/
def delete_cmd (uid : Nat) (v : Vault) : Int × Vault :=
  if !v.in_use then (-EINVAL, v)
  else if v.owner ≠ uid then (-EACCES, v)
  else (0, reset_vault v)

/-- `ioctl_handler`: decoded message dispatch over the vault pool.  The
`copy_from_user(&msg, ...)` result is compared against `< 0` in the C code and
can never be negative, so decoding always proceeds; the message is passed
already decoded. -/
def ioctl_handler (uid : Nat) (vaults : List Vault) (cmd : Nat) (msg : Msg)
    (cdevAllocOk cdevAddOk dataAllocOk : Bool) : Int × List Vault :=
  if msg.device ≥ N_VAULTS then (-EINVAL, vaults)
  else
    let v := vaults.getD msg.device init_vault
    if cmd = 0 then
      let r := create_cmd uid v msg.size msg.key cdevAllocOk cdevAddOk dataAllocOk
      (r.1, vaults.set msg.device r.2)
    else if cmd = 1 then
      let r := changekey_cmd uid v msg.key
      (r.1, vaults.set msg.device r.2)
    else if cmd = 5 then
      let r := erase_cmd uid v
      (r.1, vaults.set msg.device r.2)
    else if cmd = 3 then
      let r := delete_cmd uid v
      (r.1, vaults.set msg.device r.2)
    else (-EINVAL, vaults)

/-- One write request of a sequence of `write` calls: the cursor position the
call starts at, the requested length, the userspace bytes, and the
`copy_from_user` shortfall. -/
structure WriteReq where
  fpos : Nat
  len : Nat
  user : List Nat
  nc : Nat
deriving DecidableEq

/-- Run a sequence of write calls (each with a successful transient-buffer
allocation) against a vault. -/
def writeSeq (uid : Nat) (v : Vault) : List WriteReq → Vault
  | [] => v
  | r :: rs => writeSeq uid (vault_write uid v r.fpos r.len true r.user r.nc).2.2 rs

/-- `offset + actual_bytes_written` of one write request. -/
def reqEnd (v : Vault) (r : WriteReq) : Nat :=
  r.fpos + (write_to_copy v r.fpos r.len - r.nc)

/-- The maximum of `offset + actual_bytes_written` over a sequence of writes. -/
def highWater (v : Vault) (rs : List WriteReq) : Nat :=
  rs.foldr (fun r acc => max (reqEnd v r) acc) 0

/-- Run a sequence of write calls each delivering its chunk completely
(`not_copied = 0`), threading the advancing cursor; returns the final vault and
cursor. -/
def writeChunks (uid : Nat) : Vault → Nat → List (List Nat) → Vault × Nat
  | v, fpos, [] => (v, fpos)
  | v, fpos, c :: cs =>
      let r := vault_write uid v fpos c.length true c 0
      writeChunks uid r.2.2 r.2.1 cs

/-- Run a sequence of read calls of the given lengths (full `copy_to_user`
each time), threading the advancing cursor; returns the concatenation of the
delivered bytes and the final cursor. -/
def readChunks (uid : Nat) (v : Vault) : Nat → List Nat → List Nat × Nat
  | fpos, [] => ([], fpos)
  | fpos, n :: ns =>
      let r := vault_read uid v fpos n true 0
      let rest := readChunks uid v r.2.1 ns
      (r.2.2 ++ rest.1, rest.2)


/-- A concrete Active vault of capacity 2 with nothing written yet
(`used_space = 0`), owned by uid 0; its buffer holds the stale bytes 170 and
187.  The cursor position 1 used with it below is a valid seek target. -/
def c2Vault : Vault :=
  { key := List.replicate 10 0
    data := [170, 187]
    driver := true
    size := 2
    used_space := 0
    owner := 0
    in_use := true }

/-- The vault obtained by a successful `Create` of capacity 2 (zero key) on a
pristine slot, by uid 0. -/
def c7Vault : Vault := (create_cmd 0 init_vault 2 (List.replicate 10 0) true true true).2

/-- A concrete Active vault of capacity 4 owned by uid 0, buffer filled with
the byte 7, `used_space = 0`, key bytes 1..10. -/
def c3Vault : Vault :=
  { key := [1, 2, 3, 4, 5, 6, 7, 8, 9, 10]
    data := [7, 7, 7, 7]
    driver := true
    size := 4
    used_space := 0
    owner := 0
    in_use := true }

/-- `c3Vault` but owned by uid 5. -/
def c5Vault : Vault := { c3Vault with owner := 5 }

/-- A Free vault as left behind by `Delete`. -/
def freeVault : Vault := reset_vault c3Vault

/-- A concrete Active vault of capacity 8 owned by uid 0 with 3 bytes already
in use, used to witness the round-trip theorem. -/
def roundVault : Vault :=
  { key := [1, 2, 3, 4, 5, 6, 7, 8, 9, 10]
    data := [9, 9, 9, 9, 9, 9, 9, 9]
    driver := true
    size := 8
    used_space := 3
    owner := 0
    in_use := true }

theorem sub64_eq_sub (a b : Nat) (hb : b ≤ a) (ha : a < 2 ^ 64) : sub64 a b = a - b := by
  unfold sub64
  rw [show ((2 : Int) ^ 64) = 18446744073709551616 by norm_num]
  omega

theorem xor_buffer_length : ∀ (b : List Nat) (off : Nat) (k : List Nat),
    (xor_buffer b off k).length = b.length
  | [], _, _ => rfl
  | x :: b, off, k => by
    simp [xor_buffer, xor_buffer_length b (off + 1) k]

theorem xor_buffer_append : ∀ (a b : List Nat) (off : Nat) (k : List Nat),
    xor_buffer (a ++ b) off k = xor_buffer a off k ++ xor_buffer b (off + a.length) k
  | [], b, off, k => by simp [xor_buffer]
  | x :: a, b, off, k => by
    have h : off + (x :: a).length = off + 1 + a.length := by
      simp only [List.length_cons]
      omega
    rw [h]
    simp only [List.cons_append, xor_buffer, List.append_eq]
    rw [xor_buffer_append a b (off + 1) k]

theorem xor_buffer_involution : ∀ (b : List Nat) (off : Nat) (k : List Nat),
    xor_buffer (xor_buffer b off k) off k = b
  | [], _, _ => rfl
  | x :: b, off, k => by
    simp [xor_buffer, xor_buffer_involution b (off + 1) k, Nat.xor_cancel_right]

theorem xor_buffer_take : ∀ (b : List Nat) (n off : Nat) (k : List Nat),
    (xor_buffer b off k).take n = xor_buffer (b.take n) off k
  | [], _, _, _ => by simp [xor_buffer]
  | x :: b, 0, off, k => by simp [xor_buffer]
  | x :: b, n + 1, off, k => by
    simp [xor_buffer, xor_buffer_take b n (off + 1) k]

theorem vault_write_run (uid : Nat) (v : Vault) (fpos len : Nat) (user : List Nat) (nc : Nat)
    (ho : v.owner = uid) (hnc : nc ≤ write_to_copy v fpos len)
    (hub : write_to_copy v fpos len - nc ≤ user.length) :
    vault_write uid v fpos len true user nc =
      (((write_to_copy v fpos len - nc : Nat) : Int),
       fpos + (write_to_copy v fpos len - nc),
       { v with
           used_space := max v.used_space (fpos + (write_to_copy v fpos len - nc)),
           data := v.data.take fpos ++
             xor_buffer (user.take (write_to_copy v fpos len - nc) ++ List.replicate nc 0)
               fpos v.key ++
             v.data.drop (fpos + write_to_copy v fpos len) }) := by
  have h2 : write_to_copy v fpos len - (write_to_copy v fpos len - nc) = nc := by omega
  have hlen : ((user.take (write_to_copy v fpos len - nc) ++
      List.replicate nc 0) : List Nat).length = write_to_copy v fpos len := by
    simp only [List.length_append, List.length_take, List.length_replicate]
    omega
  have hused : (if fpos + (write_to_copy v fpos len - nc) > v.used_space
      then fpos + (write_to_copy v fpos len - nc) else v.used_space)
      = max v.used_space (fpos + (write_to_copy v fpos len - nc)) := by
    split <;> omega
  simp only [vault_write, writeBytes, ho, ne_eq, not_true_eq_false, if_false, ite_false,
    Bool.not_true, Bool.false_eq_true, h2, xor_buffer_length, hlen, hused]

theorem vault_write_full (uid : Nat) (v : Vault) (fpos len : Nat) (user : List Nat)
    (ho : v.owner = uid) (hlen : user.length = len)
    (hsz : v.size < 2 ^ 64) (hfit : fpos + len ≤ v.size) :
    write_to_copy v fpos len = len ∧
    vault_write uid v fpos len true user 0 =
      ((len : Int), fpos + len,
       { v with
           used_space := max v.used_space (fpos + len),
           data := v.data.take fpos ++ xor_buffer user fpos v.key ++
             v.data.drop (fpos + len) }) := by
  subst hlen
  have ht : write_to_copy v fpos user.length = user.length := by
    unfold write_to_copy
    rw [sub64_eq_sub v.size fpos (by omega) hsz]
    show (if v.size - fpos < user.length then v.size - fpos else user.length) = user.length
    split <;> omega
  refine ⟨ht, ?_⟩
  have h := vault_write_run uid v fpos user.length user 0 ho (by omega) (by omega)
  rw [h, ht]
  simp [List.take_length]

theorem vault_read_run (uid : Nat) (v : Vault) (fpos n : Nat)
    (ho : v.owner = uid) (hfit : fpos + n ≤ v.used_space) (hsz : v.used_space < 2 ^ 64) :
    vault_read uid v fpos n true 0 =
      ((n : Int), fpos + n, xor_buffer ((v.data.drop fpos).take n) fpos v.key) := by
  have ht : read_to_copy v fpos n = n := by
    unfold read_to_copy
    rw [sub64_eq_sub v.used_space fpos (by omega) hsz]
    show (if v.used_space - fpos < n then v.used_space - fpos else n) = n
    split <;> omega
  have hlen : (xor_buffer ((v.data.drop fpos).take n) fpos v.key).length ≤ n := by
    rw [xor_buffer_length]
    simp [List.length_take]
  simp only [vault_read, ho, ne_eq, not_true_eq_false, if_false, ite_false, Bool.not_true,
    Bool.false_eq_true, ht, Nat.sub_zero, List.take_of_length_le hlen]

theorem vault_read_zero (uid : Nat) (v : Vault) (fpos : Nat) (ho : v.owner = uid) :
    vault_read uid v fpos 0 true 0 = (0, fpos, []) := by
  simp [vault_read, read_to_copy, ho]

theorem vault_write_fields (uid : Nat) (v : Vault) (fpos len : Nat) (allocOk : Bool)
    (user : List Nat) (nc : Nat) :
    (vault_write uid v fpos len allocOk user nc).2.2.owner = v.owner ∧
    (vault_write uid v fpos len allocOk user nc).2.2.size = v.size ∧
    (vault_write uid v fpos len allocOk user nc).2.2.key = v.key ∧
    (vault_write uid v fpos len allocOk user nc).2.2.in_use = v.in_use ∧
    v.used_space ≤ (vault_write uid v fpos len allocOk user nc).2.2.used_space := by
  by_cases h1 : v.owner ≠ uid
  · simp [vault_write, h1]
  · by_cases h2 : allocOk
    · simp only [vault_write, h1, h2, if_false, ite_false, Bool.not_true, Bool.false_eq_true]
      refine ⟨trivial, trivial, trivial, trivial, ?_⟩
      show v.used_space ≤ if _ > v.used_space then _ else v.used_space
      split <;> omega
    · simp only [Bool.not_eq_true] at h2
      simp [vault_write, h1, h2]

theorem vault_write_used_eq (uid : Nat) (v : Vault) (fpos len : Nat) (user : List Nat)
    (nc : Nat) (ho : v.owner = uid) :
    (vault_write uid v fpos len true user nc).2.2.used_space
      = max v.used_space (fpos + (write_to_copy v fpos len - nc)) := by
  simp only [vault_write, ho, ne_eq, not_true_eq_false, if_false, ite_false, Bool.not_true,
    Bool.false_eq_true]
  show (if _ > v.used_space then _ else v.used_space) = _
  split <;> omega

theorem write_to_copy_congr (v w : Vault) (h : v.size = w.size) (fpos len : Nat) :
    write_to_copy v fpos len = write_to_copy w fpos len := by
  unfold write_to_copy
  rw [h]

theorem reqEnd_congr (v w : Vault) (h : v.size = w.size) (r : WriteReq) :
    reqEnd v r = reqEnd w r := by
  unfold reqEnd
  rw [write_to_copy_congr v w h]

theorem highWater_congr (v w : Vault) (h : v.size = w.size) (rs : List WriteReq) :
    highWater v rs = highWater w rs := by
  induction rs with
  | nil => rfl
  | cons r rs ih =>
    show max (reqEnd v r) (highWater v rs) = max (reqEnd w r) (highWater w rs)
    rw [reqEnd_congr v w h, ih]

theorem writeSeq_used (uid : Nat) (rs : List WriteReq) : ∀ (v : Vault), v.owner = uid →
    (writeSeq uid v rs).used_space = max v.used_space (highWater v rs) := by
  induction rs with
  | nil =>
    intro v ho
    simp [writeSeq, highWater]
  | cons r rs ih =>
    intro v ho
    have hv1 := vault_write_fields uid v r.fpos r.len true r.user r.nc
    show (writeSeq uid (vault_write uid v r.fpos r.len true r.user r.nc).2.2 rs).used_space = _
    rw [ih _ (by rw [hv1.1, ho])]
    rw [highWater_congr (vault_write uid v r.fpos r.len true r.user r.nc).2.2 v hv1.2.1 rs]
    rw [vault_write_used_eq uid v r.fpos r.len r.user r.nc ho]
    show max (max v.used_space (reqEnd v r)) (highWater v rs)
      = max v.used_space (max (reqEnd v r) (highWater v rs))
    omega

theorem writeChunks_run (uid : Nat) : ∀ (cs : List (List Nat)) (v : Vault) (fpos : Nat),
    v.owner = uid → v.data.length = v.size → v.size < 2 ^ 64 →
    fpos + cs.flatten.length ≤ v.size →
    writeChunks uid v fpos cs =
      ({ v with
           used_space := if cs.isEmpty then v.used_space
             else max v.used_space (fpos + cs.flatten.length),
           data := v.data.take fpos ++ xor_buffer cs.flatten fpos v.key ++
             v.data.drop (fpos + cs.flatten.length) },
       fpos + cs.flatten.length)
  | [], v, fpos, ho, hd, hsz, hfit => by
    show (v, fpos) = _
    simp [xor_buffer]
  | c :: cs, v, fpos, ho, hd, hsz, hfit => by
    have hfll : (c :: cs).flatten.length = c.length + cs.flatten.length := by simp
    rw [hfll] at hfit
    have hw := (vault_write_full uid v fpos c.length c ho rfl hsz (by omega)).2
    have hstep : writeChunks uid v fpos (c :: cs) =
        writeChunks uid (vault_write uid v fpos c.length true c 0).2.2
          (vault_write uid v fpos c.length true c 0).2.1 cs := rfl
    rw [hstep, hw]
    dsimp only
    have hA : (v.data.take fpos).length = fpos := by
      rw [List.length_take]
      omega
    have hB : (xor_buffer c fpos v.key).length = c.length := xor_buffer_length c fpos v.key
    have hAB : ((v.data.take fpos ++ xor_buffer c fpos v.key) : List Nat).length
        = fpos + c.length := by
      rw [List.length_append, hA, hB]
    have hd1 : ((v.data.take fpos ++ xor_buffer c fpos v.key ++
        v.data.drop (fpos + c.length)) : List Nat).length = v.size := by
      simp only [List.length_append, List.length_take, List.length_drop, hB]
      omega
    rw [writeChunks_run uid cs
      { v with
          used_space := max v.used_space (fpos + c.length),
          data := v.data.take fpos ++ xor_buffer c fpos v.key ++
            v.data.drop (fpos + c.length) }
      (fpos + c.length)
      (by show v.owner = uid; exact ho)
      (by show (v.data.take fpos ++ xor_buffer c fpos v.key ++
        v.data.drop (fpos + c.length)).length = v.size; exact hd1)
      (by show v.size < 2 ^ 64; exact hsz)
      (by show fpos + c.length + cs.flatten.length ≤ v.size; omega)]
    have htake : ((v.data.take fpos ++ xor_buffer c fpos v.key ++
        v.data.drop (fpos + c.length)) : List Nat).take (fpos + c.length)
        = v.data.take fpos ++ xor_buffer c fpos v.key := by
      rw [List.take_left' hAB]
    have hdrop : ((v.data.take fpos ++ xor_buffer c fpos v.key ++
        v.data.drop (fpos + c.length)) : List Nat).drop
          (fpos + c.length + cs.flatten.length)
        = v.data.drop (fpos + c.length + cs.flatten.length) := by
      rw [show fpos + c.length + cs.flatten.length
          = (v.data.take fpos ++ xor_buffer c fpos v.key).length + cs.flatten.length by
            rw [hAB],
        List.drop_append cs.flatten.length, List.drop_drop, hAB]
    simp only [List.flatten_cons, List.length_append, List.isEmpty_cons, Bool.false_eq_true,
      if_false, ite_false]
    rw [Prod.mk.injEq]
    constructor
    · show ({ v with used_space := _, data := _ } : Vault) = _
      have hused : (if cs.isEmpty then max v.used_space (fpos + c.length)
          else max (max v.used_space (fpos + c.length))
            (fpos + c.length + cs.flatten.length))
          = max v.used_space (fpos + (c.length + cs.flatten.length)) := by
        cases cs with
        | nil => simp
        | cons c2 cs2 => simp; omega
      have hdata : (v.data.take fpos ++ xor_buffer c fpos v.key ++
            v.data.drop (fpos + c.length)).take (fpos + c.length) ++
          xor_buffer cs.flatten (fpos + c.length) v.key ++
          (v.data.take fpos ++ xor_buffer c fpos v.key ++
            v.data.drop (fpos + c.length)).drop (fpos + c.length + cs.flatten.length)
          = v.data.take fpos ++ xor_buffer (c ++ cs.flatten) fpos v.key ++
            v.data.drop (fpos + (c.length + cs.flatten.length)) := by
        rw [htake, hdrop, xor_buffer_append c cs.flatten fpos v.key]
        simp only [List.append_assoc]
        rw [show fpos + c.length + cs.flatten.length
          = fpos + (c.length + cs.flatten.length) by omega]
      rw [show fpos + c.length + cs.flatten.length
        = fpos + (c.length + cs.flatten.length) by omega] at hused hdata ⊢
      rw [hused, hdata]
    · omega

theorem readChunks_run (uid : Nat) : ∀ (ns : List Nat) (v : Vault) (fpos : Nat),
    v.owner = uid → v.used_space < 2 ^ 64 → fpos + ns.sum ≤ v.used_space →
    v.used_space ≤ v.data.length →
    readChunks uid v fpos ns =
      (xor_buffer ((v.data.drop fpos).take ns.sum) fpos v.key, fpos + ns.sum)
  | [], v, fpos, ho, hsz, hfit, hud => by
    simp [readChunks, xor_buffer]
  | n :: ns, v, fpos, ho, hsz, hfit, hud => by
    have hsum : (n :: ns).sum = n + ns.sum := by simp
    rw [hsum] at hfit
    have hr := vault_read_run uid v fpos n ho (by omega) hsz
    have hstep : readChunks uid v fpos (n :: ns) =
        ((vault_read uid v fpos n true 0).2.2 ++
          (readChunks uid v (vault_read uid v fpos n true 0).2.1 ns).1,
         (readChunks uid v (vault_read uid v fpos n true 0).2.1 ns).2) := rfl
    rw [hstep, hr]
    dsimp only
    rw [readChunks_run uid ns v (fpos + n) ho hsz (by omega) hud]
    dsimp only
    have h1 : ((v.data.drop fpos).take n).length = n := by
      simp only [List.length_take, List.length_drop]
      omega
    rw [hsum, Prod.mk.injEq]
    constructor
    · rw [List.take_add (v.data.drop fpos) n ns.sum, List.drop_drop,
        xor_buffer_append _ _ fpos v.key, h1]
    · omega

theorem readChunks_zeros (uid : Nat) : ∀ (ns : List Nat) (v : Vault) (fpos : Nat),
    v.owner = uid → (∀ n ∈ ns, n = 0) →
    readChunks uid v fpos ns = ([], fpos)
  | [], v, fpos, ho, hz => rfl
  | n :: ns, v, fpos, ho, hz => by
    have hn : n = 0 := hz n (by simp)
    subst hn
    have hr := vault_read_zero uid v fpos ho
    have hstep : readChunks uid v fpos (0 :: ns) =
        ((vault_read uid v fpos 0 true 0).2.2 ++
          (readChunks uid v (vault_read uid v fpos 0 true 0).2.1 ns).1,
         (readChunks uid v (vault_read uid v fpos 0 true 0).2.1 ns).2) := rfl
    rw [hstep, hr]
    dsimp only
    rw [readChunks_zeros uid ns v fpos ho (fun m hm => hz m (by simp [hm]))]
    simp

/-- C1: on an Active vault owned by the caller, writing a plaintext at cursor
position `o` (in any chunking, each chunk fully delivered) and then reading `l`
bytes back from cursor position `o` (in any chunking, each read fully
delivered) returns exactly the first `l` bytes of the plaintext, because the
keystream byte of `xor_buffer` depends only on the absolute offset
`(o + i) % KEYSIZE` and xor is self-inverse.  The write consumes the whole
plaintext, ending with the cursor at `o + plaintext.length`. -/
theorem roundtrip_chunked (uid : Nat) (v : Vault) (o : Nat)
    (wchunks : List (List Nat)) (rlens : List Nat)
    (ho : v.owner = uid) (hd : v.data.length = v.size) (hsz : v.size < 2 ^ 64)
    (hu : v.used_space ≤ v.size)
    (hfit : o + wchunks.flatten.length ≤ v.size)
    (hl : rlens.sum ≤ wchunks.flatten.length) :
    (writeChunks uid v o wchunks).2 = o + wchunks.flatten.length ∧
    (readChunks uid (writeChunks uid v o wchunks).1 o rlens).1
      = wchunks.flatten.take rlens.sum := by
  rw [writeChunks_run uid wchunks v o ho hd hsz hfit]
  dsimp only
  refine ⟨rfl, ?_⟩
  cases wchunks with
  | nil =>
    have hsum0 : rlens.sum = 0 := by
      simp only [List.flatten_nil, List.length_nil] at hl
      omega
    rw [readChunks_zeros uid rlens _ o (by show v.owner = uid; exact ho)
      (List.sum_eq_zero_iff.mp hsum0)]
    simp [hsum0]
  | cons c cs =>
    have hL : ((c :: cs).flatten : List Nat).length = c.length + cs.flatten.length := by
      simp
    have hE : (xor_buffer (c :: cs).flatten o v.key).length
        = (c :: cs).flatten.length := xor_buffer_length _ o v.key
    have hA : (v.data.take o).length = o := by
      rw [List.length_take]
      omega
    have hdl : ((v.data.take o ++ xor_buffer (c :: cs).flatten o v.key ++
        v.data.drop (o + (c :: cs).flatten.length)) : List Nat).length = v.size := by
      simp only [List.length_append, List.length_take, List.length_drop, hE]
      omega
    rw [readChunks_run uid rlens
      { v with
          used_space := if (c :: cs).isEmpty then v.used_space
            else max v.used_space (o + (c :: cs).flatten.length),
          data := v.data.take o ++ xor_buffer (c :: cs).flatten o v.key ++
            v.data.drop (o + (c :: cs).flatten.length) }
      o
      (by show v.owner = uid; exact ho)
      (by show max v.used_space (o + (c :: cs).flatten.length) < 2 ^ 64; omega)
      (by show o + rlens.sum ≤ max v.used_space (o + (c :: cs).flatten.length); omega)
      (by show max v.used_space (o + (c :: cs).flatten.length) ≤ _
          rw [hdl]
          omega)]
    dsimp only
    have hdrop : ((v.data.take o ++ xor_buffer (c :: cs).flatten o v.key ++
        v.data.drop (o + (c :: cs).flatten.length)) : List Nat).drop o
        = xor_buffer (c :: cs).flatten o v.key ++
          v.data.drop (o + (c :: cs).flatten.length) := by
      rw [List.append_assoc, List.drop_left' hA]
    rw [hdrop, List.take_append_of_le_length (by rw [hE]; exact hl),
      xor_buffer_take, xor_buffer_involution]

/-- C1 witness: a concrete instance of `roundtrip_chunked` — write the bytes
100, 101, 102 at offset 1 in two chunks, read them back in two reads of 2 and
1 bytes. -/
theorem roundtrip_chunked_witness :
    roundVault.owner = 0 ∧ roundVault.data.length = roundVault.size ∧
    roundVault.size < 2 ^ 64 ∧ roundVault.used_space ≤ roundVault.size ∧
    1 + ([[100], [101, 102]] : List (List Nat)).flatten.length ≤ roundVault.size ∧
    ([2, 1] : List Nat).sum ≤ ([[100], [101, 102]] : List (List Nat)).flatten.length ∧
    ((writeChunks 0 roundVault 1 [[100], [101, 102]]).2
        = 1 + ([[100], [101, 102]] : List (List Nat)).flatten.length ∧
      (readChunks 0 (writeChunks 0 roundVault 1 [[100], [101, 102]]).1 1 [2, 1]).1
        = ([[100], [101, 102]] : List (List Nat)).flatten.take ([2, 1] : List Nat).sum) :=
  ⟨by decide, by decide, by decide, by decide, by decide, by decide,
    roundtrip_chunked 0 roundVault 1 [[100], [101, 102]] [2, 1]
      (by decide) (by decide) (by decide) (by decide) (by decide) (by decide)⟩

/-- C2: the claim says a Read whose cursor lies strictly beyond `used_space`
copies nothing and returns 0.  The code computes `used_space - *offset` in
64-bit unsigned arithmetic, which wraps: on `c2Vault` (capacity 2,
`used_space = 0`) the cursor 1 is reached by a valid seek, and a Read of one
byte then returns 1 and delivers the stale byte 187 that lies beyond
`used_space`. -/
theorem read_past_used_space_eval :
    c2Vault.used_space = 0 ∧ c2Vault.size = 2 ∧
    vault_llseek 0 c2Vault 0 1 SEEK_SET = (1, 1) ∧
    read_to_copy c2Vault 1 1 = 1 ∧
    vault_read 0 c2Vault 1 1 true 0 = (1, 2, [187]) ∧
    (1 : Int) ≠ 0 := by decide

/-- C7: the claim says `used_space ≤ size` holds in every reachable state and
that a Write whose cursor is at or beyond the capacity writes 0 bytes.  Chaining
Create (capacity 2), a valid Seek to 1, a Read of 5 bytes (which, through the
unsigned-wrap bug of the read path, advances the cursor to 6 > capacity) and a
Write of 3 bytes reaches a state with `used_space = 9 > size = 2`, the write
returning 3, not 0. -/
theorem used_space_exceeds_size_eval :
    c7Vault.in_use = true ∧ c7Vault.size = 2 ∧ c7Vault.used_space = 0 ∧
    vault_llseek 0 c7Vault 0 1 SEEK_SET = (1, 1) ∧
    (vault_read 0 c7Vault 1 5 true 0).2.1 = 6 ∧
    (vault_write 0 c7Vault 6 3 true [1, 2, 3] 0).1 = 3 ∧
    (vault_write 0 c7Vault 6 3 true [1, 2, 3] 0).2.2.used_space = 9 ∧
    (vault_write 0 c7Vault 6 3 true [1, 2, 3] 0).2.2.size = 2 := by decide

/-- C10: a control command other than 0 (Create), 1 (ChangeKey), 5 (Erase) and
3 (Delete), with a valid vault index, returns `-EINVAL` and leaves the whole
vault pool unchanged. -/
theorem unknown_cmd_noop (uid : Nat) (vaults : List Vault) (cmd : Nat) (msg : Msg)
    (a b c : Bool) (hdev : msg.device < N_VAULTS)
    (h0 : cmd ≠ 0) (h1 : cmd ≠ 1) (h5 : cmd ≠ 5) (h3 : cmd ≠ 3) :
    ioctl_handler uid vaults cmd msg a b c = (-EINVAL, vaults) := by
  simp [ioctl_handler, h0, h1, h5, h3, show ¬ msg.device ≥ N_VAULTS by omega]

/-- C10 witness: command code 2 (the client-side `ERASE` enum value, which the
kernel does not handle) on vault 0. -/
theorem unknown_cmd_noop_witness :
    (⟨[], 0, 0⟩ : Msg).device < N_VAULTS ∧ (2 : Nat) ≠ 0 ∧ (2 : Nat) ≠ 1 ∧
    (2 : Nat) ≠ 5 ∧ (2 : Nat) ≠ 3 ∧
    ioctl_handler 0 [init_vault, init_vault, init_vault, init_vault] 2 ⟨[], 0, 0⟩
      true true true = (-EINVAL, [init_vault, init_vault, init_vault, init_vault]) :=
  ⟨by decide, by decide, by decide, by decide, by decide,
    unknown_cmd_noop 0 [init_vault, init_vault, init_vault, init_vault] 2 ⟨[], 0, 0⟩
      true true true (by decide) (by decide) (by decide) (by decide) (by decide)⟩

/-- C8: for a Seek by the vault's owner, the target is `offset` for `SEEK_SET`,
`current + offset` for `SEEK_CUR` and `size - 1 - offset` for `SEEK_END`; the
call fails with `-EINVAL` (leaving the cursor unchanged) exactly when the
target is negative or not below the capacity, and otherwise stores and returns
the target. -/
theorem seek_semantics (uid : Nat) (v : Vault) (fpos : Nat) (offset : Int)
    (whence : Nat) (ho : v.owner = uid)
    (hwh : whence = SEEK_SET ∨ whence = SEEK_CUR ∨ whence = SEEK_END) :
    seek_new_offset v fpos offset whence
        = (if whence = SEEK_SET then offset
           else if whence = SEEK_CUR then (fpos : Int) + offset
           else (v.size : Int) - 1 - offset) ∧
    ((seek_new_offset v fpos offset whence < 0 ∨
        (v.size : Int) ≤ seek_new_offset v fpos offset whence) →
      vault_llseek uid v fpos offset whence = (-EINVAL, fpos)) ∧
    ((0 ≤ seek_new_offset v fpos offset whence ∧
        seek_new_offset v fpos offset whence < (v.size : Int)) →
      vault_llseek uid v fpos offset whence
        = (seek_new_offset v fpos offset whence,
           (seek_new_offset v fpos offset whence).toNat)) := by
  refine ⟨rfl, fun h => ?_, fun h => ?_⟩
  · simp [vault_llseek, ho, hwh, h]
  · have hc : ¬ (seek_new_offset v fpos offset whence < 0 ∨
        (v.size : Int) ≤ seek_new_offset v fpos offset whence) := by omega
    simp [vault_llseek, ho, hwh, hc]

/-- C8 witness: `SEEK_END` with offset 1 on a capacity-4 vault lands on
position `4 - 1 - 1 = 2`. -/
theorem seek_semantics_witness :
    c3Vault.owner = 0 ∧
    (SEEK_END = SEEK_SET ∨ SEEK_END = SEEK_CUR ∨ SEEK_END = SEEK_END) ∧
    ((0 ≤ seek_new_offset c3Vault 0 1 SEEK_END ∧
        seek_new_offset c3Vault 0 1 SEEK_END < (c3Vault.size : Int)) →
      vault_llseek 0 c3Vault 0 1 SEEK_END
        = (seek_new_offset c3Vault 0 1 SEEK_END,
           (seek_new_offset c3Vault 0 1 SEEK_END).toNat)) ∧
    vault_llseek 0 c3Vault 0 1 SEEK_END = (2, 2) :=
  ⟨by decide, by decide,
    (seek_semantics 0 c3Vault 0 1 SEEK_END (by decide) (by decide)).2.2,
    by decide⟩

/-- C3 counterexample: the claim says a Write whose copy-in delivers fewer
bytes than requested modifies the data buffer only on
`[cursor, cursor + actual)`.  On `c3Vault`, a Write of 2 bytes at cursor 0 with
`not_copied = 1` (so `actual = 1`) returns 1 but overwrites the byte at offset
1 as well: it changes from 7 to 2 (the zero-filled tail of the transient
buffer, encrypted with the keystream byte `key[1] = 2`). -/
theorem write_short_copy_cex :
    (vault_write 0 c3Vault 0 2 true [5, 5] 1).1 = 1 ∧
    c3Vault.data.getD 1 0 = 7 ∧
    (vault_write 0 c3Vault 0 2 true [5, 5] 1).2.2.data.getD 1 0 = 2 ∧
    (vault_write 0 c3Vault 0 2 true [5, 5] 1).2.2.data ≠ c3Vault.data := by decide

/-- C3 amended: on a short copy-in, the return value, the cursor advance and
the `used_space` update are all governed by the delivered count
`actual = to_copy - not_copied`, but the `memcpy` into the vault covers the
whole range `[cursor, cursor + to_copy)`: the undelivered tail
`[cursor + actual, cursor + to_copy)` is overwritten with keystream bytes (the
zero-filled remainder of the transient buffer, encrypted), and only bytes from
`cursor + to_copy` on are unchanged. -/
theorem write_short_copy_amended (uid : Nat) (v : Vault) (fpos len : Nat)
    (user : List Nat) (nc : Nat) (ho : v.owner = uid)
    (hnc : nc ≤ write_to_copy v fpos len)
    (hub : write_to_copy v fpos len - nc ≤ user.length) :
    vault_write uid v fpos len true user nc =
      (((write_to_copy v fpos len - nc : Nat) : Int),
       fpos + (write_to_copy v fpos len - nc),
       { v with
           used_space := max v.used_space (fpos + (write_to_copy v fpos len - nc)),
           data := v.data.take fpos ++
             xor_buffer (user.take (write_to_copy v fpos len - nc) ++
               List.replicate nc 0) fpos v.key ++
             v.data.drop (fpos + write_to_copy v fpos len) }) :=
  vault_write_run uid v fpos len user nc ho hnc hub

/-- C3 witness: the short write of `write_short_copy_cex` matches the amended
description. -/
theorem write_short_copy_amended_witness :
    c3Vault.owner = 0 ∧ 1 ≤ write_to_copy c3Vault 0 2 ∧
    write_to_copy c3Vault 0 2 - 1 ≤ ([5, 5] : List Nat).length ∧
    vault_write 0 c3Vault 0 2 true [5, 5] 1 =
      (((write_to_copy c3Vault 0 2 - 1 : Nat) : Int),
       0 + (write_to_copy c3Vault 0 2 - 1),
       { c3Vault with
           used_space := max c3Vault.used_space (0 + (write_to_copy c3Vault 0 2 - 1)),
           data := c3Vault.data.take 0 ++
             xor_buffer (([5, 5] : List Nat).take (write_to_copy c3Vault 0 2 - 1) ++
               List.replicate 1 0) 0 c3Vault.key ++
             c3Vault.data.drop (0 + write_to_copy c3Vault 0 2) }) :=
  ⟨by decide, by decide, by decide,
    write_short_copy_amended 0 c3Vault 0 2 [5, 5] 1 (by decide) (by decide) (by decide)⟩

/-- C4 counterexample: the claim says a Create that fails with `-ENOMEM`
leaves every field of the vault, including the driver handle, unchanged.  On a
Free vault without a driver the failing Create returns `-ENOMEM` with the
driver handle already installed, so the vault differs from its pre-call
state. -/
theorem create_allocfail_cex :
    freeVault.in_use = false ∧ freeVault.driver = false ∧
    (create_cmd 0 freeVault 4 [1, 2, 3] true true false).1 = -ENOMEM ∧
    (create_cmd 0 freeVault 4 [1, 2, 3] true true false).2.driver = true ∧
    (create_cmd 0 freeVault 4 [1, 2, 3] true true false).2 ≠ freeVault := by decide

/-- C4 amended: when Create fails because the data buffer cannot be obtained,
it aborts with `-ENOMEM` and the vault still Free with `size`, `used_space`,
`owner`, `key` and `data` (still null) untouched — but the driver/registration
handle has already been replaced, because the new cdev is allocated,
initialized, registered and stored in the vault before the data allocation is
attempted. -/
theorem create_allocfail_amended (uid : Nat) (v : Vault) (msgsize : Nat)
    (msgkey : List Nat) (hfree : v.in_use = false) (hlo : 1 ≤ msgsize)
    (hhi : msgsize ≤ MAX_DATA) (hdata : v.data = []) :
    create_cmd uid v msgsize msgkey true true false
      = (-ENOMEM, { v with driver := true }) := by
  have h1 : ¬ (msgsize < 1 ∨ msgsize > MAX_DATA) := by omega
  simp [create_cmd, hfree, h1, hdata]
  exact fun hcon => absurd hcon (by omega)

/-- C4 witness: the failing Create of `create_allocfail_cex` matches the
amended description. -/
theorem create_allocfail_amended_witness :
    freeVault.in_use = false ∧ 1 ≤ 4 ∧ 4 ≤ MAX_DATA ∧ freeVault.data = [] ∧
    create_cmd 0 freeVault 4 [1, 2, 3] true true false
      = (-ENOMEM, { freeVault with driver := true }) :=
  ⟨by decide, by decide, by decide, by decide,
    create_allocfail_amended 0 freeVault 4 [1, 2, 3] (by decide) (by decide)
      (by decide) (by decide)⟩

/-- C5 counterexample: the claim says every lifecycle operation on an Active
vault by a non-owner fails with `PermissionDenied`; but Create on an Active
vault (owner 5, caller 7) fails with `-EINVAL` (AlreadyActive), not
`-EACCES`. -/
theorem ownership_gate_cex :
    c5Vault.in_use = true ∧ (7 : Nat) ≠ c5Vault.owner ∧
    (create_cmd 7 c5Vault 1 [] true true true).1 = -EINVAL ∧
    (create_cmd 7 c5Vault 1 [] true true true).1 ≠ -EACCES := by decide

/-- C5 amended: on an Active vault, ChangeKey, Erase, Delete, Seek, Read and
Write invoked by an identity other than the owner fail with `-EACCES` and
mutate nothing (vault and cursor unchanged); Create instead fails with
`-EINVAL` (AlreadyActive, checked before ownership), also mutating nothing. -/
theorem ownership_gate_amended (uid : Nat) (v : Vault) (fpos len nc msgsize : Nat)
    (user msgkey : List Nat) (allocOk a b c : Bool) (offset : Int) (whence : Nat)
    (hact : v.in_use = true) (hne : v.owner ≠ uid) :
    changekey_cmd uid v msgkey = (-EACCES, v) ∧
    erase_cmd uid v = (-EACCES, v) ∧
    delete_cmd uid v = (-EACCES, v) ∧
    create_cmd uid v msgsize msgkey a b c = (-EINVAL, v) ∧
    vault_llseek uid v fpos offset whence = (-EACCES, fpos) ∧
    vault_read uid v fpos len allocOk nc = (-EACCES, fpos, []) ∧
    vault_write uid v fpos len allocOk user nc = (-EACCES, fpos, v) := by
  refine ⟨?_, ?_, ?_, ?_, ?_, ?_, ?_⟩ <;>
    simp [changekey_cmd, erase_cmd, delete_cmd, create_cmd, vault_llseek,
      vault_read, vault_write, hact, hne]

/-- C5 witness: caller 7 against the Active vault owned by 5. -/
theorem ownership_gate_amended_witness :
    c5Vault.in_use = true ∧ c5Vault.owner ≠ 7 ∧
    (changekey_cmd 7 c5Vault [3, 3] = (-EACCES, c5Vault) ∧
      erase_cmd 7 c5Vault = (-EACCES, c5Vault) ∧
      delete_cmd 7 c5Vault = (-EACCES, c5Vault) ∧
      create_cmd 7 c5Vault 1 [3, 3] true true true = (-EINVAL, c5Vault) ∧
      vault_llseek 7 c5Vault 0 1 SEEK_SET = (-EACCES, 0) ∧
      vault_read 7 c5Vault 0 1 true 0 = (-EACCES, 0, []) ∧
      vault_write 7 c5Vault 0 1 true [9] 0 = (-EACCES, 0, c5Vault)) :=
  ⟨by decide, by decide,
    ownership_gate_amended 7 c5Vault 0 1 0 1 [9] [3, 3] true true true true 1 SEEK_SET
      (by decide) (by decide)⟩

/-- C6: `used_space` is a high-water mark.  Over a whole sequence of writes by
the owner it equals the maximum of the starting value and of
`offset + actual_bytes_written` over all writes; a single write updates it to
`max used_space (cursor + actual)` and never decreases it (for any allocation
outcome); ChangeKey preserves it; and it is set to 0 exactly by a successful
Erase, Delete or Create. -/
theorem used_space_high_water (uid : Nat) (v : Vault) (rs : List WriteReq)
    (ho : v.owner = uid) :
    (writeSeq uid v rs).used_space = max v.used_space (highWater v rs) ∧
    (∀ fpos len user nc,
      (vault_write uid v fpos len true user nc).2.2.used_space
        = max v.used_space (fpos + (write_to_copy v fpos len - nc))) ∧
    (∀ fpos len allocOk user nc,
      v.used_space ≤ (vault_write uid v fpos len allocOk user nc).2.2.used_space) ∧
    (∀ msgkey, (changekey_cmd uid v msgkey).2.used_space = v.used_space) ∧
    ((erase_cmd uid v).1 = 0 → (erase_cmd uid v).2.used_space = 0) ∧
    ((delete_cmd uid v).1 = 0 → (delete_cmd uid v).2.used_space = 0) ∧
    (∀ msgsize msgkey a b c, (create_cmd uid v msgsize msgkey a b c).1 = 0 →
      (create_cmd uid v msgsize msgkey a b c).2.used_space = 0) := by
  refine ⟨writeSeq_used uid rs v ho,
    fun fpos len user nc => vault_write_used_eq uid v fpos len user nc ho,
    fun fpos len allocOk user nc =>
      (vault_write_fields uid v fpos len allocOk user nc).2.2.2.2,
    ?_, ?_, ?_, ?_⟩
  · intro msgkey
    unfold changekey_cmd
    split
    · rfl
    · split <;> rfl
  · intro h
    by_cases h1 : v.in_use = true
    · by_cases h2 : v.owner ≠ uid
      · simp [erase_cmd, h1, h2, EACCES] at h
      · simp [erase_cmd, h1, h2]
    · simp [erase_cmd, h1, EINVAL] at h
  · intro h
    by_cases h1 : v.in_use = true
    · by_cases h2 : v.owner ≠ uid
      · simp [delete_cmd, h1, h2, EACCES] at h
      · simp [delete_cmd, h1, h2, reset_vault]
    · simp [delete_cmd, h1, EINVAL] at h
  · intro msgsize msgkey a b c h
    by_cases h1 : v.in_use = true
    · simp [create_cmd, h1, EINVAL] at h
    · by_cases h2 : msgsize < 1 ∨ msgsize > MAX_DATA
      · have h2n : msgsize = 0 ∨ MAX_DATA < msgsize := by omega
        simp [create_cmd, h1, h2n, EINVAL] at h
      · have h2n : ¬ (msgsize = 0 ∨ MAX_DATA < msgsize) := by omega
        by_cases h3 : a = true
        · by_cases h4 : b = true
          · by_cases h5 : c = true
            · simp [create_cmd, h1, h2n, h3, h4, h5]
            · simp [create_cmd, h1, h2n, h3, h4, h5, ENOMEM] at h
          · simp [create_cmd, h1, h2n, h3, h4, EINVAL] at h
        · simp [create_cmd, h1, h2n, h3, EINVAL] at h

/-- C6 witness: two concrete writes at offsets 0 and 1 on a fresh vault. -/
theorem used_space_high_water_witness :
    c3Vault.owner = 0 ∧
    (writeSeq 0 c3Vault [⟨0, 2, [9, 9], 0⟩, ⟨1, 1, [8], 0⟩]).used_space
      = max c3Vault.used_space
          (highWater c3Vault [⟨0, 2, [9, 9], 0⟩, ⟨1, 1, [8], 0⟩]) :=
  ⟨by decide,
    (used_space_high_water 0 c3Vault [⟨0, 2, [9, 9], 0⟩, ⟨1, 1, [8], 0⟩] (by decide)).1⟩

/-- C9 counterexample: the claim says every data-path operation on a Free
vault fails with the permission error.  A never-created vault as initialized
by `mod_init` has `owner = 0` (not the `-1` sentinel), so a caller with uid 0
opens it successfully. -/
theorem freevault_open_cex :
    init_vault.in_use = false ∧ init_vault.owner = 0 ∧
    vault_open 0 init_vault = 0 ∧ (0 : Int) ≠ -EACCES := by decide

/-- C9 amended: on a vault that was reset by Delete (or module teardown),
`owner` holds the sentinel `(uid_t)(-1) = 2^32 - 1`, so every data-path
operation by any caller identity other than the sentinel value fails with
`-EACCES` (PermissionDenied, not a NotActive-style error) and mutates nothing;
the data path never inspects the Active/Free status (its results are identical
for any value of `in_use`).  A never-created vault after module init instead
has `owner = 0`, so the gate does not reject a caller with uid 0 there. -/
theorem freevault_gate_amended (w : Vault) (uid : Nat) (fpos len nc : Nat)
    (allocOk : Bool) (user : List Nat) (offset : Int) (whence : Nat)
    (b : Bool) (v2 : Vault) (uid2 : Nat) (hu : uid ≠ UID_SENTINEL) :
    (reset_vault w).in_use = false ∧
    vault_open uid (reset_vault w) = -EACCES ∧
    vault_release uid (reset_vault w) = -EACCES ∧
    vault_llseek uid (reset_vault w) fpos offset whence = (-EACCES, fpos) ∧
    vault_read uid (reset_vault w) fpos len allocOk nc = (-EACCES, fpos, []) ∧
    vault_write uid (reset_vault w) fpos len allocOk user nc
      = (-EACCES, fpos, reset_vault w) ∧
    vault_open uid2 { v2 with in_use := b } = vault_open uid2 v2 ∧
    vault_release uid2 { v2 with in_use := b } = vault_release uid2 v2 ∧
    vault_llseek uid2 { v2 with in_use := b } fpos offset whence
      = vault_llseek uid2 v2 fpos offset whence ∧
    vault_read uid2 { v2 with in_use := b } fpos len allocOk nc
      = vault_read uid2 v2 fpos len allocOk nc ∧
    (vault_write uid2 { v2 with in_use := b } fpos len allocOk user nc).1
      = (vault_write uid2 v2 fpos len allocOk user nc).1 ∧
    (vault_write uid2 { v2 with in_use := b } fpos len allocOk user nc).2.1
      = (vault_write uid2 v2 fpos len allocOk user nc).2.1 ∧
    (vault_write uid2 { v2 with in_use := b } fpos len allocOk user nc).2.2.data
      = (vault_write uid2 v2 fpos len allocOk user nc).2.2.data ∧
    (vault_write uid2 { v2 with in_use := b } fpos len allocOk user nc).2.2.used_space
      = (vault_write uid2 v2 fpos len allocOk user nc).2.2.used_space := by
  have hs : (reset_vault w).owner ≠ uid := fun hh => hu (by
    rw [← hh]
    rfl)
  refine ⟨rfl, ?_, ?_, ?_, ?_, ?_, rfl, rfl, rfl, rfl, ?_, ?_, ?_, ?_⟩
  · simp [vault_open, hs]
  · simp [vault_release, hs]
  · simp [vault_llseek, hs]
  · simp [vault_read, hs]
  · simp [vault_write, hs]
  all_goals
    by_cases hc : v2.owner = uid2 <;> by_cases ha : allocOk <;>
      simp [vault_write, writeBytes, write_to_copy, hc, ha]

/-- C9 witness: caller uid 3 against the deleted vault `freeVault`, and
status-independence checked at `c3Vault`. -/
theorem freevault_gate_amended_witness :
    (3 : Nat) ≠ UID_SENTINEL ∧
    (freeVault.in_use = false ∧
      vault_open 3 freeVault = -EACCES ∧
      vault_release 3 freeVault = -EACCES ∧
      vault_llseek 3 freeVault 0 1 SEEK_SET = (-EACCES, 0) ∧
      vault_read 3 freeVault 0 1 true 0 = (-EACCES, 0, []) ∧
      vault_write 3 freeVault 0 1 true [9] 0 = (-EACCES, 0, freeVault) ∧
      vault_open 0 { c3Vault with in_use := false } = vault_open 0 c3Vault ∧
      vault_release 0 { c3Vault with in_use := false } = vault_release 0 c3Vault ∧
      vault_llseek 0 { c3Vault with in_use := false } 0 1 SEEK_SET
        = vault_llseek 0 c3Vault 0 1 SEEK_SET ∧
      vault_read 0 { c3Vault with in_use := false } 0 1 true 0
        = vault_read 0 c3Vault 0 1 true 0 ∧
      (vault_write 0 { c3Vault with in_use := false } 0 1 true [9] 0).1
        = (vault_write 0 c3Vault 0 1 true [9] 0).1 ∧
      (vault_write 0 { c3Vault with in_use := false } 0 1 true [9] 0).2.1
        = (vault_write 0 c3Vault 0 1 true [9] 0).2.1 ∧
      (vault_write 0 { c3Vault with in_use := false } 0 1 true [9] 0).2.2.data
        = (vault_write 0 c3Vault 0 1 true [9] 0).2.2.data ∧
      (vault_write 0 { c3Vault with in_use := false } 0 1 true [9] 0).2.2.used_space
        = (vault_write 0 c3Vault 0 1 true [9] 0).2.2.used_space) :=
  ⟨by decide,
    freevault_gate_amended c3Vault 3 0 1 0 true [9] 1 SEEK_SET false c3Vault 0
      (by decide)⟩

end Secvault
